import Mathlib

/-!
Verification development for the MaterialX node-graph compiler of the
BlenderUSDHydraAddon repository (`src/hdusd/mx_nodes/nodes/base_node.py`).

The Python source is shallowly embedded below:
* pure helpers (`parse_val`, `MxNode.create_property`, the grouping in
  `create_node_types`, `MxNode.new`) become Lean functions;
* the stateful graph-compilation pass (`MxNode.compute`, `_compute_node`,
  `get_input_link`, `get_input_value`, `MxNode_Output.compute`) becomes an
  explicit state-passing function over a `DocState` (document node list plus
  log records), with a fuel parameter standing for the call stack of the
  synchronous recursion (Python recursion depth);
* Python exceptions (attribute errors, missing nodedef ports, key errors)
  become `none` results of the outer `Option`.

Modelling conventions, each noted again at its definition:
* Python `float(s)` / `int(s)` numeric parsing is kept as the opaque token
  wrappers `PyFloat` / `PyInt` holding the source string: no claim under
  verification depends on the numeric value, only on how tokens are split,
  trimmed and dispatched.
* the regex character class `\d` is modelled as an ASCII digit and `.` in
  `(.+)array` as an arbitrary character (Python also accepts Unicode digits
  and excludes a bare newline; no claim exercises those code points).
* `utils.title_str` and `utils.code_str` are imported by the source from a
  module that is not part of the provided sources; see their definitions.
-/

/-- Opaque model of a Python float produced by `float(s)`: the claims under
verification only concern how strings are split into float tokens, never the
numeric value, so the token itself is the carrier. -/
structure PyFloat where
  tok : String
deriving DecidableEq, Repr

/-- Opaque model of a Python int produced by `int(s)`, kept as its token for
the same reason as `PyFloat`. -/
structure PyInt where
  tok : String
deriving DecidableEq, Repr

/-- Values held by node properties and produced by `parse_val`. -/
inductive MxVal where
  | str (s : String)
  | int (i : PyInt)
  | float (f : PyFloat)
  | bool (b : Bool)
  | floatVec (fs : List PyFloat)
  | strVec (ss : List String)
deriving DecidableEq, Repr

/-- Log records emitted through the `log` module (`log(...)`, `log.warn`,
`log.error`). Only the severity and the identifying payload are modelled. -/
inductive LogEntry where
  | info (msg : String)
  | warn (msg : String) (subject : String)
  | error (msg : String) (subject : String)
deriving DecidableEq, Repr

/-- The `bpy.props` property constructors that `create_property` dispatches
on. -/
inductive PropType where
  | StringProperty
  | IntProperty
  | FloatProperty
  | EnumProperty
  | FloatVectorProperty
  | IntVectorProperty
  | BoolProperty
  | PointerProperty
deriving DecidableEq, Repr

/-- Values stored into the `prop_attrs` dict by `create_property`. -/
inductive AttrVal where
  | s (v : String)
  | n (v : Nat)
  | items (v : List (String × String × String))
  | val (v : MxVal)
  | none
deriving DecidableEq, Repr

/-- Model of an `mx.PyMaterialXCore` parameter / input / output element as
`create_property` consumes it: `getType`, `getName`, `hasAttribute`,
`getAttribute` (empty string when absent, as in MaterialX), and
`getParent().getName()`. -/
structure MxParam where
  name : String
  type : String
  attrs : List (String × String)
  parentName : String
deriving DecidableEq, Repr

def MxParam.getAttribute (p : MxParam) (k : String) : String :=
  match p.attrs.lookup k with
  | some v => v
  | none => ""

def MxParam.hasAttribute (p : MxParam) (k : String) : Bool :=
  (p.attrs.lookup k).isSome

/-- Model of Python `str.split(sep)` with an explicit one-character
separator, on the character list: splitting the empty string gives `[[]]`
and consecutive separators give empty fields, as in Python. -/
def pySplitChars (sep : Char) : List Char → List (List Char)
  | [] => [[]]
  | c :: rest =>
      match pySplitChars sep rest with
      | [] => if c = sep then [[], [c]] else [[c]]
      | h :: t => if c = sep then [] :: h :: t else (c :: h) :: t

/-- Model of Python `val.split(sep)` for a one-character separator. -/
def pySplit (sep : Char) (val : String) : List String :=
  (pySplitChars sep val.data).map (fun cs => String.mk cs)

/-- Model of Python `str.strip()`: drop whitespace from both ends
(`Char.isWhitespace` covers the ASCII whitespace Python strips, short of
the rare `\x0b`/`\x0c`, which no schema attribute contains). -/
def pyStrip (s : String) : String :=
  String.mk (((s.data.dropWhile Char.isWhitespace).reverse.dropWhile
    Char.isWhitespace).reverse)

/-- Embedding of the module-level function `parse_val(prop_type, val,
first_only=False)`. Python `val.split(',')` is `pySplit ','` and
`x.strip()` is `pyStrip`. The fall-through for property types without a
branch returns Python `None`, modelled as `Option.none`. -/
def parse_val (prop_type : PropType) (val : String) (first_only : Bool) :
    Option MxVal :=
  match prop_type with
  | .StringProperty => some (.str val)
  | .IntProperty => some (.int ⟨val⟩)
  | .FloatProperty => some (.float ⟨val⟩)
  | .BoolProperty => some (.bool (val == "true"))
  | .FloatVectorProperty =>
      let res := (pySplit ',' val).map (fun x => PyFloat.mk x)
      if first_only then
        match res with
        | f :: _ => some (.float f)
        | [] => none
      else
        some (.floatVec res)
  | .EnumProperty =>
      let res := (pySplit ',' val).map (fun x => pyStrip x)
      if first_only then
        match res with
        | s :: _ => some (.str s)
        | [] => none
      else
        some (.strVec res)
  | _ => none

/-- Modelled from the spec: display labels are "derived deterministically from
the representative NodeDefinition's category/name"; the helper
`utils.title_str` is imported from a module outside the provided sources, so
the derivation is modelled as the identity. No claim depends on its output
beyond determinism. -/
def title_str (s : String) : String := s

/-- Modelled from the spec: a CompiledNode is "identified by a name derived
from the GraphNode's name"; the helper `utils.code_str` is outside the
provided sources, so the derivation is modelled as the identity. No claim
depends on the concrete derivation. -/
def code_str (s : String) : String := s

/-- Matcher for `re.fullmatch('matrix(\d)(\d)', mx_type)`, on the character
list of the string (`\d` modelled as ASCII digit). -/
def matchMatrix (l : List Char) : Option (Nat × Nat) :=
  match l with
  | ['m', 'a', 't', 'r', 'i', 'x', d1, d2] =>
      if d1.isDigit && d2.isDigit then
        some (d1.toNat - '0'.toNat, d2.toNat - '0'.toNat)
      else
        none
  | _ => none

/-- Matcher for `re.fullmatch('color(\d)', mx_type)`. -/
def matchColor (l : List Char) : Option Nat :=
  match l with
  | ['c', 'o', 'l', 'o', 'r', d] =>
      if d.isDigit then some (d.toNat - '0'.toNat) else none
  | _ => none

/-- Matcher for `re.fullmatch('vector(\d)', mx_type)`. -/
def matchVector (l : List Char) : Option Nat :=
  match l with
  | ['v', 'e', 'c', 't', 'o', 'r', d] =>
      if d.isDigit then some (d.toNat - '0'.toNat) else none
  | _ => none

/-- Matcher for `re.fullmatch('(.+)array', mx_type)`: at least one leading
character followed by the literal suffix `array`. -/
def matchArray (l : List Char) : Bool :=
  decide (6 ≤ l.length) && decide (l.drop (l.length - 5) = ['a', 'r', 'r', 'a', 'y'])

/-- The shader-reference type names of the source's membership test. -/
def shaderTypes : List String :=
  ["surfaceshader", "displacementshader", "volumeshader", "lightshader",
   "material", "BSDF", "VDF", "EDF"]

/-- Result of the type-dispatch part of `create_property`: the chosen
property constructor, the dispatch-time attrs (in dict insertion order) and
the warning log emitted for an unrecognized type. -/
def create_property_dispatch (mx_param : MxParam) :
    PropType × List (String × AttrVal) × List LogEntry :=
  let mx_type := mx_param.type
  if mx_type = "string" then
    if mx_param.hasAttribute "enum" then
      let items :=
        match parse_val .EnumProperty (mx_param.getAttribute "enum") false with
        | some (.strVec ss) => ss
        | _ => []
      (.EnumProperty,
       [("items", .items (items.map (fun it => (it, title_str it, title_str it))))],
       [])
    else
      (.StringProperty, [], [])
  else if mx_type = "filename" then
    (.StringProperty, [("subtype", .s "FILE_PATH")], [])
  else if mx_type = "integer" then
    (.IntProperty, [], [])
  else if mx_type = "float" then
    (.FloatProperty, [], [])
  else if mx_type = "boolean" then
    (.BoolProperty, [], [])
  else if shaderTypes.contains mx_type then
    (.StringProperty, [], [])
  else
    match matchMatrix mx_type.data with
    | some (r, c) =>
        (.FloatVectorProperty, [("subtype", .s "MATRIX"), ("size", .n (r * c))], [])
    | none =>
    match matchColor mx_type.data with
    | some n =>
        (.FloatVectorProperty, [("subtype", .s "COLOR"), ("size", .n n)], [])
    | none =>
    match matchVector mx_type.data with
    | some dim =>
        (.FloatVectorProperty,
         [("subtype", .s (if dim = 3 then "XYZ" else "NONE")), ("size", .n dim)],
         [])
    | none =>
    if matchArray mx_type.data then
      (.StringProperty, [], [])
    else
      (.StringProperty, [],
       [.warn "Unsupported mx_type" (mx_type ++ " " ++ mx_param.parentName)])

/-- Wrapper turning a `parse_val` result into the stored attr (`Option.none`
never occurs for the property types reaching here, kept total). -/
def attrOfParse (v : Option MxVal) : AttrVal :=
  match v with
  | some x => .val x
  | none => .none

/-- Embedding of `MxNode.create_property(mx_param)`: returns the property
name, the property constructor, the attrs dict in insertion order, and the
log records the call emits. The enum-items branch of the `string` case calls
`parse_val` on the `enum` attribute, exactly as the dispatch above inlines
it. -/
def create_property (mx_param : MxParam) :
    (String × PropType × List (String × AttrVal)) × List LogEntry :=
  let prop_name := mx_param.name
  let (prop_type, dispatch_attrs, logs) := create_property_dispatch mx_param
  let attrs := dispatch_attrs
  let attrs := attrs ++
    [("name", .s (if mx_param.hasAttribute "uiname" then
                    mx_param.getAttribute "uiname"
                  else title_str prop_name)),
     ("description", .s (mx_param.getAttribute "doc"))]
  let attrs := attrs ++
    (if mx_param.hasAttribute "uimin" then
      [("min", attrOfParse (parse_val prop_type (mx_param.getAttribute "uimin") true))]
     else []) ++
    (if mx_param.hasAttribute "uimax" then
      [("max", attrOfParse (parse_val prop_type (mx_param.getAttribute "uimax") true))]
     else []) ++
    (if mx_param.hasAttribute "uisoftmin" then
      [("soft_min", attrOfParse (parse_val prop_type (mx_param.getAttribute "uisoftmin") true))]
     else []) ++
    (if mx_param.hasAttribute "uisoftmax" then
      [("soft_max", attrOfParse (parse_val prop_type (mx_param.getAttribute "uisoftmax") true))]
     else [])
  let attrs := attrs ++
    (if mx_param.hasAttribute "value" then
      [("default", attrOfParse (parse_val prop_type (mx_param.getAttribute "value")
                                  (prop_type == .EnumProperty)))]
     else [])
  ((prop_name, prop_type, attrs), logs)

/-- Model of an `mx.NodeDef` as the compiler consumes it: `getName`,
`getNodeString`, `getAttribute('nodegroup')`, and the ordered parameter /
input / output port lists (each port exposing `getName` / `getType` through
`MxParam`). -/
structure NodeDef where
  name : String
  nodeString : String
  nodegroup : String
  params : List MxParam
  inputs : List MxParam
  outputs : List MxParam
deriving DecidableEq, Repr

def NodeDef.getInput (nd : NodeDef) (n : String) : Option MxParam :=
  nd.inputs.find? (fun p => p.name = n)

def NodeDef.getOutput (nd : NodeDef) (n : String) : Option MxParam :=
  nd.outputs.find? (fun p => p.name = n)

/-- Grouping key of `create_node_types`: `(nd.getNodeString(),
nd.getAttribute('nodegroup'))`. -/
def ndKey (nd : NodeDef) : String × String :=
  (nd.nodeString, nd.nodegroup)

/-- Model of `defaultdict(list)` filled by appending: groups keep the first
occurrence order of their keys (Python dict insertion order) and each group
lists its members in traversal order. -/
def insertGrouped (acc : List ((String × String) × List NodeDef)) (nd : NodeDef) :
    List ((String × String) × List NodeDef) :=
  match acc with
  | [] => [(ndKey nd, [nd])]
  | (k, g) :: rest =>
      if k = ndKey nd then (k, g ++ [nd]) :: rest
      else (k, g) :: insertGrouped rest nd

def groupNodeDefs (nds : List NodeDef) : List ((String × String) × List NodeDef) :=
  nds.foldl insertGrouped []

/-- Result of `MxNode.new(nodedef_types)`: the generated node type's label,
identifier, nodedef tuple, the `data_type` enum items (`var_items`) and that
enum's default. -/
structure MxNodeType where
  bl_label : String
  bl_idname : String
  mx_nodedefs : List NodeDef
  var_items : List (String × String × String)
  data_type_default : String
deriving DecidableEq, Repr

/-- Embedding of `MxNode.new(nodedef_types)`. `mx_nodedefs[0]` on an empty
group is a Python `IndexError`, modelled as `none`; `create_node_types`
only ever passes nonempty groups. `var_name` is
`nd_name[(4 + len(node_name)):]`, i.e. `String.drop`. -/
def MxNode.new (nodedef_types : List NodeDef) : Option MxNodeType :=
  match nodedef_types with
  | [] => none
  | nd :: _ =>
      let node_name := nd.nodeString
      let var_items := nodedef_types.map (fun nd_type =>
        let nd_name := nd_type.name
        let var_name := nd_name.drop (4 + node_name.length)
        (nd_name, title_str var_name, title_str var_name))
      some {
        bl_label := title_str nd.nodeString
        bl_idname := "hdusd.MxNode_" ++ nd.name
        mx_nodedefs := nodedef_types
        var_items := var_items
        data_type_default :=
          match var_items with
          | (n, _, _) :: _ => n
          | [] => ""
      }

/-- Embedding of the grouping-and-construction part of
`create_node_types`: from the list of successfully parsed NodeDefs (the
XML reading and the per-definition try/except precede this point in the
source), group by `(node, nodegroup)` and build one node type per group. -/
def create_node_types (nodedef_types : List NodeDef) : List (Option MxNodeType) :=
  (groupNodeDefs nodedef_types).map (fun kg => MxNode.new kg.2)

/-- Value stored on a port of an emitted document node, as `set_value`
leaves it: a reference by node name (`setNodeName`), a raw string
(`setValueString`, the `filename` branch), or a literal value (`setValue`;
the `mx_type(val)` coercion wraps the same value in the MaterialX container
named by the port's declared type, which the document model already
records, so both `setValue` branches are one constructor here). -/
inductive PortVal where
  | nodeRef (name : String)
  | valueString (v : MxVal)
  | value (v : MxVal)
deriving DecidableEq, Repr

/-- A typed input or parameter appended to an emitted document node. -/
structure MxPort where
  name : String
  type : String
  val : PortVal
deriving DecidableEq, Repr

/-- A node of the emitted MaterialX document (`doc.addNode(category, name,
type)` plus the `addInput` / `addParameter` calls made on it before the
compute call returns it). -/
structure MxDocNode where
  name : String
  category : String
  type : String
  inputs : List MxPort
  params : List MxPort
deriving DecidableEq, Repr

def MxDocNode.getName (n : MxDocNode) : String := n.name

def MxDocNode.getType (n : MxDocNode) : String := n.type

/-- State threaded through one document-building pass: the document's node
list in `addNode` order, and the log records emitted so far. -/
structure DocState where
  nodes : List MxDocNode
  logs : List LogEntry
deriving DecidableEq, Repr

def DocState.addNode (st : DocState) (n : MxDocNode) : DocState :=
  { st with nodes := st.nodes ++ [n] }

def DocState.log (st : DocState) (e : LogEntry) : DocState :=
  { st with logs := st.logs ++ [e] }

/-- A graph link as `get_input_link` reads it: `link.is_valid`,
`link.from_node`, `link.from_socket.name`. -/
structure LinkG (α : Type) where
  is_valid : Bool
  from_node : α
  from_socket : String
deriving DecidableEq, Repr

/-- An input socket of a graph node: the socket name, its
`node_prop_name` (the key of the literal value on the node's property
group), and its (at most singly used) link list. -/
structure InSockG (α : Type) where
  sname : String
  node_prop_name : String
  links : List (LinkG α)
deriving DecidableEq, Repr

/-- A node of the live editor graph as the compiler traverses it.
`mx` is an `MxNode` instance (the active nodedef of `self.prop` with the
property-group values and the socket lists); `out` is the terminal
`MxNode_Output` instance; `foreign` is any `bpy` node that is not an
`MxNode` (`_compute_node` filters it out). -/
inductive GNode where
  | mx (name : String) (nd : NodeDef) (propVals : List (String × MxVal))
       (inputs : List (InSockG GNode)) (outputs : List String)
  | out (name : String) (inputs : List (InSockG GNode))
  | foreign (name : String)
deriving Repr

def GNode.gname : GNode → String
  | .mx n _ _ _ _ => n
  | .out n _ => n
  | .foreign n => n

/-- A resolved input value as `get_input_value` returns it: either the
upstream compiled `mx.Node` or the literal default from the property
group. -/
inductive InVal where
  | node (n : MxDocNode)
  | val (v : MxVal)
deriving DecidableEq, Repr

/-- Embedding of the local `set_value(param, val, nd_type)` of
`MxNode.compute`. -/
def set_value (val : InVal) (nd_type : String) : PortVal :=
  match val with
  | .node n => .nodeRef n.getName
  | .val v => if nd_type = "filename" then .valueString v else .value v

/-- Result of one `_compute_node` / `compute` call: the outer `Option` is
raised-exception vs normal return (also used for fuel exhaustion, i.e. the
unbounded recursion Python would not survive either), the inner `Option` is
the Python `None`-vs-node result, paired with the updated pass state. -/
abbrev CompRes := Option (Option MxDocNode × DocState)

/-- Embedding of `MxNode.get_input_link(in_key)` on an already looked-up
socket, parameterized by the recursive `_compute_node` continuation `rec`.
Note the source logs an invalid link but still falls through to
`_compute_node(link.from_node, ...)`: there is no early return. -/
def get_input_link_with (rec : GNode → String → DocState → CompRes)
    (sock : InSockG GNode) (st : DocState) : CompRes :=
  match sock.links with
  | [] => some (none, st)
  | link :: _ =>
      let st := if link.is_valid then st
                else st.log (.error "Invalid link found" sock.sname)
      rec link.from_node link.from_socket st

/-- Embedding of `MxNode.get_input_value(in_key)`: the linked compiled node
when `get_input_link` returned one, else the literal default read off the
property group (`getattr(self.prop, node_prop_name)`; a missing key is a
Python `AttributeError`, hence `none`). -/
def get_input_value_with (rec : GNode → String → DocState → CompRes)
    (propVals : List (String × MxVal)) (sock : InSockG GNode) (st : DocState) :
    Option (InVal × DocState) :=
  match get_input_link_with rec sock st with
  | none => none
  | some (some n, st₁) => some (.node n, st₁)
  | some (none, st₁) =>
      match propVals.lookup sock.node_prop_name with
      | some v => some (.val v, st₁)
      | none => none

/-- The `for in_key in range(len(self.inputs))` loop of `MxNode.compute`
collecting `values`, threading the pass state left to right. -/
def computeValues (rec : GNode → String → DocState → CompRes)
    (propVals : List (String × MxVal)) (socks : List (InSockG GNode))
    (st : DocState) : Option (List InVal × DocState) :=
  match socks with
  | [] => some ([], st)
  | sock :: rest =>
      match get_input_value_with rec propVals sock st with
      | none => none
      | some (v, st₁) =>
          match computeValues rec propVals rest st₁ with
          | none => none
          | some (vs, st₂) => some (v :: vs, st₂)

/-- The input-port construction loop of `MxNode.compute`: for each socket
and its resolved value, `get_nodedef_input` (a `None` result makes the
subsequent attribute access raise, hence `none`) then `addInput` plus
`set_value`. -/
def mkInputPorts (nd : NodeDef) (socks : List (InSockG GNode)) (vals : List InVal) :
    Option (List MxPort) :=
  match socks, vals with
  | [], _ => some []
  | _, [] => some []
  | sock :: socks', v :: vals' =>
      match nd.getInput (sock.node_prop_name.drop 3) with
      | none => none
      | some nd_input =>
          match mkInputPorts nd socks' vals' with
          | none => none
          | some ports =>
              some ({ name := nd_input.name, type := nd_input.type,
                      val := set_value v nd_input.type } :: ports)

/-- The parameter-port construction loop of `MxNode.compute`:
`get_param_value` (`getattr(self.prop, 'p_' + name)`, `none` on a missing
key) then `addParameter` plus `set_value`. -/
def mkParamPorts (propVals : List (String × MxVal)) (ndParams : List MxParam) :
    Option (List MxPort) :=
  match ndParams with
  | [] => some []
  | ndp :: rest =>
      match propVals.lookup ("p_" ++ ndp.name) with
      | none => none
      | some v =>
          match mkParamPorts propVals rest with
          | none => none
          | some ports =>
              some ({ name := ndp.name, type := ndp.type,
                      val := set_value (.val v) ndp.type } :: ports)

/-- Embedding of `MxNode.compute(out_key)` for a graph node
`GNode.mx name nd propVals inputs outputs`, parameterized by the recursive
`_compute_node` continuation. Steps, in source order: the `log` call, the
output-socket and nodedef-output lookups (`self.outputs[out_key]` /
`get_nodedef_output`; failures raise), the `values` loop (which recursively
compiles all linked upstream nodes), then `doc.addNode` followed by the
`addInput` / `addParameter` loops on the new node, which is returned. -/
def MxNode.compute_with (rec : GNode → String → DocState → CompRes)
    (name : String) (nd : NodeDef) (propVals : List (String × MxVal))
    (inputs : List (InSockG GNode)) (outputs : List String)
    (out_key : String) (st : DocState) : Option (MxDocNode × DocState) :=
  let st := st.log (.info ("compute " ++ name ++ " " ++ out_key))
  if ¬ outputs.contains out_key then none
  else
    match nd.getOutput (code_str out_key) with
    | none => none
    | some nd_output =>
        match computeValues rec propVals inputs st with
        | none => none
        | some (values, st₁) =>
            match mkInputPorts nd inputs values, mkParamPorts propVals nd.params with
            | some inPorts, some paramPorts =>
                let node : MxDocNode :=
                  { name := code_str name, category := nd.nodeString,
                    type := nd_output.type, inputs := inPorts, params := paramPorts }
                some (node, st₁.addNode node)
            | _, _ => none

/-- Embedding of `MxNode_Output.compute(out_key)`: look up the `Surface`
input socket, compile its link; `None` (unlinked, invalid-free) returns
`None`; a `surfaceshader`-typed result is returned as is; any other type
gets the synthetic `surface` wrapper node with its single `bsdf` input
bound by `setNodeName`. -/
def MxNode_Output.compute_with (rec : GNode → String → DocState → CompRes)
    (name : String) (inputs : List (InSockG GNode)) (st : DocState) : CompRes :=
  let st := st.log (.info ("compute " ++ name))
  match inputs.find? (fun s => s.sname = "Surface") with
  | none => none
  | some sock =>
      match get_input_link_with rec sock st with
      | none => none
      | some (none, st₁) => some (none, st₁)
      | some (some n, st₁) =>
          if n.getType = "surfaceshader" then some (some n, st₁)
          else
            let surface : MxDocNode :=
              { name := "surface", category := "surface", type := "surfaceshader",
                inputs := [{ name := "bsdf", type := n.getType,
                             val := .nodeRef n.getName }],
                params := [] }
            some (some surface, st₁.addNode surface)

/-- Embedding of `MxNode._compute_node(node, out_key)` tied with the
recursion through the graph: the fuel bounds the synchronous recursion
depth (the source has no memoization and no cycle defense, so the Python
call stack plays this role). A non-`MxNode` upstream node is logged with
`log.warn` and yields `None`; otherwise the node's own `compute` runs. -/
def compute_node : Nat → GNode → String → DocState → CompRes
  | 0, _, _, _ => none
  | fuel + 1, node, out_key, st =>
      match node with
      | .foreign n => some (none, st.log (.warn "Ignoring unsupported node" n))
      | .mx name nd propVals inputs outputs =>
          match MxNode.compute_with (compute_node fuel) name nd propVals inputs
              outputs out_key st with
          | none => none
          | some (n, st₁) => some (some n, st₁)
      | .out name inputs =>
          MxNode_Output.compute_with (compute_node fuel) name inputs st

/-- The empty pass state (`doc = mx.createDocument()` with no nodes, no log
records yet). -/
def DocState.empty : DocState := { nodes := [], logs := [] }

/-- Fixture: nodedef output port `out` of type `float`. -/
def fxOut : MxParam :=
  { name := "out", type := "float", attrs := [], parentName := "ND_constant_float" }

/-- Fixture: nodedef of a zero-input `constant` node. -/
def ndConst : NodeDef :=
  { name := "ND_constant_float", nodeString := "constant", nodegroup := "",
    params := [], inputs := [], outputs := [fxOut] }

/-- Fixture: the graph node `A`, a constant with no inputs. -/
def gA : GNode := .mx "A" ndConst [] [] ["out"]

/-- Fixture: nodedef input port `in1`. -/
def fxIn1 : MxParam :=
  { name := "in1", type := "float", attrs := [], parentName := "ND_add_float" }

/-- Fixture: nodedef input port `in2`. -/
def fxIn2 : MxParam :=
  { name := "in2", type := "float", attrs := [], parentName := "ND_add_float" }

/-- Fixture: nodedef of a two-input `add` node. -/
def ndAdd : NodeDef :=
  { name := "ND_add_float", nodeString := "add", nodegroup := "",
    params := [], inputs := [fxIn1, fxIn2], outputs := [fxOut] }

/-- Fixture: a valid link from the `out` socket of `A`. -/
def lnkA : LinkG GNode := { is_valid := true, from_node := gA, from_socket := "out" }

/-- Fixture: graph node `B`, both inputs linked to the same upstream pair
`(A, out)` — the diamond sharing shape of the memoization claim. -/
def gB : GNode :=
  .mx "B" ndAdd [("in_in1", .float ⟨"0.0"⟩), ("in_in2", .float ⟨"0.0"⟩)]
    [{ sname := "In1", node_prop_name := "in_in1", links := [lnkA] },
     { sname := "In2", node_prop_name := "in_in2", links := [lnkA] }]
    ["out"]

/-- Fixture: the document node that compiling `(A, out)` emits. -/
def docA : MxDocNode :=
  { name := "A", category := "constant", type := "float", inputs := [], params := [] }

/-- Fixture: graph node `C` whose first input carries a single link flagged
invalid (`link.is_valid = false`) from `(A, out)`, second input unlinked. -/
def gC : GNode :=
  .mx "C" ndAdd [("in_in1", .float ⟨"0.5"⟩), ("in_in2", .float ⟨"0.5"⟩)]
    [{ sname := "In1", node_prop_name := "in_in1",
       links := [{ is_valid := false, from_node := gA, from_socket := "out" }] },
     { sname := "In2", node_prop_name := "in_in2", links := [] }]
    ["out"]

/-- Fixture: the document node that compiling `C` emits: its first input is
bound by reference to the upstream node compiled through the invalid link. -/
def docC : MxDocNode :=
  { name := "C", category := "add", type := "float",
    inputs := [{ name := "in1", type := "float", val := .nodeRef "A" },
               { name := "in2", type := "float", val := .value (.float ⟨"0.5"⟩) }],
    params := [] }

/-- Names referenced by a document node: every port value that was set with
`setNodeName` (reference-by-name to another document node). -/
def portRefs (n : MxDocNode) : List String :=
  (n.inputs ++ n.params).filterMap (fun p =>
    match p.val with
    | .nodeRef s => some s
    | _ => none)

/-- Placeholder document node for indexed access. -/
def dnil : MxDocNode :=
  { name := "", category := "", type := "", inputs := [], params := [] }

/-- A document node list is topologically ordered when every
reference-by-name of a node points at some node appended strictly
earlier. -/
def docTopo (ns : List MxDocNode) : Prop :=
  ∀ i, i < ns.length → ∀ s ∈ portRefs (ns.getD i dnil),
    ∃ j, j < i ∧ (ns.getD j dnil).name = s

instance docTopoDecidable (ns : List MxDocNode) : Decidable (docTopo ns) := by
  unfold docTopo
  infer_instance

/-- Fixture: nodedef whose output is already of the terminal
`surfaceshader` type. -/
def ndSurf : NodeDef :=
  { name := "ND_standard_surface_surfaceshader", nodeString := "standard_surface",
    nodegroup := "pbr", params := [],
    inputs := [],
    outputs := [{ name := "out", type := "surfaceshader", attrs := [],
                  parentName := "ND_standard_surface_surfaceshader" }] }

/-- Fixture: graph node `S` compiling to a `surfaceshader`-typed document
node. -/
def gSurf : GNode := .mx "S" ndSurf [] [] ["out"]

/-- Fixture: terminal output node with `Surface` linked to the `float`-typed
`A` (the wrapper branch). -/
def gOutWrap : GNode :=
  .out "Material Output"
    [{ sname := "Surface", node_prop_name := "", links := [lnkA] },
     { sname := "Volume", node_prop_name := "", links := [] },
     { sname := "Displacement", node_prop_name := "", links := [] }]

/-- Fixture: terminal output node with `Surface` linked to the
`surfaceshader`-typed `S` (the pass-through branch). -/
def gOutPass : GNode :=
  .out "Material Output"
    [{ sname := "Surface", node_prop_name := "",
       links := [{ is_valid := true, from_node := gSurf, from_socket := "out" }] },
     { sname := "Volume", node_prop_name := "", links := [] },
     { sname := "Displacement", node_prop_name := "", links := [] }]

/-- Fixture: terminal output node with `Surface` unlinked. -/
def gOutUnlinked : GNode :=
  .out "Material Output"
    [{ sname := "Surface", node_prop_name := "", links := [] },
     { sname := "Volume", node_prop_name := "", links := [] },
     { sname := "Displacement", node_prop_name := "", links := [] }]

/-- Fixture: graph node `D` whose first input is linked to a node that is
not an `MxNode` (`GNode.foreign`), second input unlinked. -/
def gD : GNode :=
  .mx "D" ndAdd [("in_in1", .float ⟨"0.5"⟩), ("in_in2", .float ⟨"0.5"⟩)]
    [{ sname := "In1", node_prop_name := "in_in1",
       links := [{ is_valid := true, from_node := .foreign "Group", from_socket := "out" }] },
     { sname := "In2", node_prop_name := "in_in2", links := [] }]
    ["out"]

/-- Fixture: a second `constant` nodedef sharing the `(node, nodegroup)`
key of `ndConst`, for the variant-grouping witness. -/
def ndConst2 : NodeDef :=
  { name := "ND_constant_color3", nodeString := "constant", nodegroup := "",
    params := [], inputs := [], outputs := [fxOut] }

/-- The synthetic wrapper node of `MxNode_Output.compute`:
`doc.addNode('surface', 'surface', 'surfaceshader')` with its single
`bsdf` input bound by `setNodeName` to the upstream result. -/
def surfaceWrapper (n : MxDocNode) : MxDocNode :=
  { name := "surface", category := "surface", type := "surfaceshader",
    inputs := [{ name := "bsdf", type := n.getType, val := .nodeRef n.getName }],
    params := [] }

theorem matchMatrix_last_digit {l : List Char} {p : Nat × Nat}
    (h : matchMatrix l = some p) :
    ∃ d, l.getLast? = some d ∧ d.isDigit = true := by
  unfold matchMatrix at h
  split at h
  · next d1 d2 =>
      split at h
      · next hd =>
          refine ⟨d2, by simp, ?_⟩
          exact (Bool.and_eq_true _ _ |>.mp hd).2
      · exact absurd h (by simp)
  · exact absurd h (by simp)

theorem matchColor_last_digit {l : List Char} {p : Nat}
    (h : matchColor l = some p) :
    ∃ d, l.getLast? = some d ∧ d.isDigit = true := by
  unfold matchColor at h
  split at h
  · next d =>
      split at h
      · next hd => exact ⟨d, by simp, hd⟩
      · exact absurd h (by simp)
  · exact absurd h (by simp)

theorem matchVector_last_digit {l : List Char} {p : Nat}
    (h : matchVector l = some p) :
    ∃ d, l.getLast? = some d ∧ d.isDigit = true := by
  unfold matchVector at h
  split at h
  · next d =>
      split at h
      · next hd => exact ⟨d, by simp, hd⟩
      · exact absurd h (by simp)
  · exact absurd h (by simp)

/-- Any type string whose last character is `y` (in particular every
`...array` string) escapes all the exact-name and digit-suffix rules of the
dispatch, so it lands in a `StringProperty` branch. -/
theorem dispatch_of_last_y (p : MxParam)
    (h : p.type.data.getLast? = some 'y') :
    (create_property_dispatch p).1 = .StringProperty := by
  have h1 : p.type ≠ "string" := fun he => by rw [he] at h; exact absurd h (by decide)
  have h2 : p.type ≠ "filename" := fun he => by rw [he] at h; exact absurd h (by decide)
  have h3 : p.type ≠ "integer" := fun he => by rw [he] at h; exact absurd h (by decide)
  have h4 : p.type ≠ "float" := fun he => by rw [he] at h; exact absurd h (by decide)
  have h5 : p.type ≠ "boolean" := fun he => by rw [he] at h; exact absurd h (by decide)
  have h6 : shaderTypes.contains p.type = false := by
    cases hcc : shaderTypes.contains p.type
    · rfl
    · exfalso
      have hm := List.elem_iff.mp hcc
      simp only [shaderTypes, List.mem_cons, List.mem_singleton] at hm
      rcases hm with he | he | he | he | he | he | he | he | he <;>
        first
          | (rw [he] at h; exact absurd h (by decide))
          | simp at he
  have h7 : matchMatrix p.type.data = none := by
    cases hm : matchMatrix p.type.data with
    | none => rfl
    | some q =>
        obtain ⟨d, hd, hdig⟩ := matchMatrix_last_digit hm
        rw [h] at hd
        cases hd
        exact absurd hdig (by decide)
  have h8 : matchColor p.type.data = none := by
    cases hm : matchColor p.type.data with
    | none => rfl
    | some q =>
        obtain ⟨d, hd, hdig⟩ := matchColor_last_digit hm
        rw [h] at hd
        cases hd
        exact absurd hdig (by decide)
  have h9 : matchVector p.type.data = none := by
    cases hm : matchVector p.type.data with
    | none => rfl
    | some q =>
        obtain ⟨d, hd, hdig⟩ := matchVector_last_digit hm
        rw [h] at hd
        cases hd
        exact absurd hdig (by decide)
  unfold create_property_dispatch
  simp only [h1, h2, h3, h4, h5, h6, h7, h8, h9, if_false, ite_false]
  split <;> first | rfl | (split <;> rfl)

theorem matrixFamilyFacts : ∀ r < 10, ∀ c < 10,
    matchMatrix ("matrix" ++ toString r ++ toString c).data = some (r, c) ∧
    ("matrix" ++ toString r ++ toString c) ≠ "string" ∧
    ("matrix" ++ toString r ++ toString c) ≠ "filename" ∧
    ("matrix" ++ toString r ++ toString c) ≠ "integer" ∧
    ("matrix" ++ toString r ++ toString c) ≠ "float" ∧
    ("matrix" ++ toString r ++ toString c) ≠ "boolean" ∧
    shaderTypes.contains ("matrix" ++ toString r ++ toString c) = false := by
  decide

theorem colorFamilyFacts : ∀ n < 10,
    matchColor ("color" ++ toString n).data = some n ∧
    matchMatrix ("color" ++ toString n).data = none ∧
    ("color" ++ toString n) ≠ "string" ∧
    ("color" ++ toString n) ≠ "filename" ∧
    ("color" ++ toString n) ≠ "integer" ∧
    ("color" ++ toString n) ≠ "float" ∧
    ("color" ++ toString n) ≠ "boolean" ∧
    shaderTypes.contains ("color" ++ toString n) = false := by
  decide

theorem vectorFamilyFacts : ∀ n < 10,
    matchVector ("vector" ++ toString n).data = some n ∧
    matchMatrix ("vector" ++ toString n).data = none ∧
    matchColor ("vector" ++ toString n).data = none ∧
    ("vector" ++ toString n) ≠ "string" ∧
    ("vector" ++ toString n) ≠ "filename" ∧
    ("vector" ++ toString n) ≠ "integer" ∧
    ("vector" ++ toString n) ≠ "float" ∧
    ("vector" ++ toString n) ≠ "boolean" ∧
    shaderTypes.contains ("vector" ++ toString n) = false := by
  decide

theorem create_property_type_eq (p : MxParam) :
    (create_property p).1.2.1 = (create_property_dispatch p).1 := by
  unfold create_property
  rfl

theorem create_property_attrs_split (p : MxParam) :
    ∃ rest, (create_property p).1.2.2 = (create_property_dispatch p).2.1 ++ rest := by
  unfold create_property
  rcases h : create_property_dispatch p with ⟨pt, da, lg⟩
  simp only [h, List.append_assoc]
  exact ⟨_, rfl⟩

theorem create_property_logs_eq (p : MxParam) :
    (create_property p).2 = (create_property_dispatch p).2.2 := by
  unfold create_property
  rcases h : create_property_dispatch p with ⟨pt, da, lg⟩
  simp only [h]

/-- C1: the claim states that compiling the same `(graphNode, outputSocket)`
pair a second time within one document-building pass returns the existing
CompiledNode unchanged and that a node referenced by multiple downstream
consumers is emitted exactly once. The code has no memoization: recompiling
`(A, out)` appends a second copy of the document node, and compiling `B`
(both of whose inputs link to the same `(A, out)`) emits `A` twice. -/
theorem c1_no_memoization_duplicate_emission :
    compute_node 2 gA "out" DocState.empty
      = some (some docA, { nodes := [docA], logs := [.info "compute A out"] }) ∧
    compute_node 2 gA "out" { nodes := [docA], logs := [.info "compute A out"] }
      = some (some docA,
          { nodes := [docA, docA],
            logs := [.info "compute A out", .info "compute A out"] }) ∧
    (compute_node 10 gB "out" DocState.empty).map
        (fun r => r.2.nodes.map MxDocNode.name)
      = some ["A", "A", "B"] :=
  ⟨by decide, by decide, by decide⟩

/-- C2: the claim states that an input whose single link is invalid is
logged and then treated as if unlinked (upstream not compiled, literal
default used). The code logs the invalid link but falls through and
compiles the upstream node anyway: compiling `C` (whose `In1` carries an
invalid link from `A`) emits `A` into the document and binds `in1` by
reference to it instead of using the literal default `0.5`. -/
theorem c2_invalid_link_upstream_still_compiled :
    compute_node 10 gC "out" DocState.empty
      = some (some docC,
          { nodes := [docA, docC],
            logs := [.info "compute C out", .error "Invalid link found" "In1",
                     .info "compute A out"] }) ∧
    docC.inputs = [{ name := "in1", type := "float", val := .nodeRef "A" },
                   { name := "in2", type := "float",
                     val := .value (.float ⟨"0.5"⟩) }] :=
  ⟨by decide, by decide⟩

/-- C3: a linked input whose upstream node is not an MxNode is logged with a
warning, the link is treated as absent so the literal default of the graph
node is used, and the compilation of the node (and hence the document)
still succeeds: for every node of this shape, `compute` returns a document
node whose input holds the literal value, with exactly the warning log
appended and exactly the one node added to the document. -/
theorem c3_foreign_node_soft_failure (fuel : Nat)
    (fname fsock nodeName ndefName nodeStr ngroup sname npn inType outName
      outType : String) (v : MxVal) (st : DocState) :
    compute_node (fuel + 2)
        (.mx nodeName
          { name := ndefName, nodeString := nodeStr, nodegroup := ngroup,
            params := [],
            inputs := [{ name := npn.drop 3, type := inType, attrs := [],
                         parentName := ndefName }],
            outputs := [{ name := outName, type := outType, attrs := [],
                          parentName := ndefName }] }
          [(npn, v)]
          [{ sname := sname, node_prop_name := npn,
             links := [{ is_valid := true, from_node := .foreign fname,
                         from_socket := fsock }] }]
          [outName])
        outName st
      = some (some
          { name := code_str nodeName, category := nodeStr, type := outType,
            inputs := [{ name := npn.drop 3, type := inType,
                         val := set_value (.val v) inType }],
            params := [] },
          ((st.log (.info ("compute " ++ nodeName ++ " " ++ outName))).log
              (.warn "Ignoring unsupported node" fname)).addNode
            { name := code_str nodeName, category := nodeStr, type := outType,
              inputs := [{ name := npn.drop 3, type := inType,
                           val := set_value (.val v) inType }],
              params := [] }) := by
  simp [compute_node, MxNode.compute_with, computeValues, get_input_value_with,
        get_input_link_with, mkInputPorts, mkParamPorts, NodeDef.getOutput,
        NodeDef.getInput, code_str, List.find?, List.lookup, DocState.addNode,
        DocState.log]

/-- C4: terminal-node resolution. When the Surface input's upstream node
compiles to a `surfaceshader`-typed node, the result is exactly that node
with nothing added; for any other type, exactly one synthetic `surface`
wrapper with a single `bsdf` input bound by reference to the upstream name
is appended and returned. -/
theorem c4_terminal_resolution (fuel : Nat) (oname k : String)
    (inputs : List (InSockG GNode)) (sock : InSockG GNode) (link : LinkG GNode)
    (st st₁ : DocState) (n : MxDocNode)
    (hfind : inputs.find? (fun s => s.sname = "Surface") = some sock)
    (hlinks : sock.links = [link])
    (hvalid : link.is_valid = true)
    (hup : compute_node fuel link.from_node link.from_socket
            (st.log (.info ("compute " ++ oname))) = some (some n, st₁)) :
    (n.getType = "surfaceshader" →
      compute_node (fuel + 1) (.out oname inputs) k st = some (some n, st₁)) ∧
    (n.getType ≠ "surfaceshader" →
      compute_node (fuel + 1) (.out oname inputs) k st =
        some (some (surfaceWrapper n), st₁.addNode (surfaceWrapper n))) := by
  constructor <;> intro hty <;>
    simp [compute_node, MxNode_Output.compute_with, hfind, get_input_link_with,
          hlinks, hvalid, hup, hty, surfaceWrapper]

/-- C4 witness: on the concrete terminal nodes `gOutPass` (upstream already
`surfaceshader`) and `gOutWrap` (upstream `float`-typed `A`), discharging
every hypothesis of the terminal-resolution theorem at those inputs. -/
theorem c4_terminal_resolution_witness :
    compute_node 3 gOutPass "" DocState.empty
      = some (some { name := "S", category := "standard_surface",
                     type := "surfaceshader", inputs := [], params := [] },
          { nodes := [{ name := "S", category := "standard_surface",
                        type := "surfaceshader", inputs := [], params := [] }],
            logs := [.info "compute Material Output", .info "compute S out"] }) ∧
    compute_node 3 gOutWrap "" DocState.empty
      = some (some (surfaceWrapper docA),
          { nodes := [docA, surfaceWrapper docA],
            logs := [.info "compute Material Output",
                     .info "compute A out"] }) := by
  constructor
  · exact (c4_terminal_resolution 2 "Material Output" ""
      [{ sname := "Surface", node_prop_name := "",
         links := [{ is_valid := true, from_node := gSurf, from_socket := "out" }] },
       { sname := "Volume", node_prop_name := "", links := [] },
       { sname := "Displacement", node_prop_name := "", links := [] }]
      { sname := "Surface", node_prop_name := "",
        links := [{ is_valid := true, from_node := gSurf, from_socket := "out" }] }
      { is_valid := true, from_node := gSurf, from_socket := "out" }
      DocState.empty
      { nodes := [{ name := "S", category := "standard_surface",
                    type := "surfaceshader", inputs := [], params := [] }],
        logs := [.info "compute Material Output", .info "compute S out"] }
      { name := "S", category := "standard_surface", type := "surfaceshader",
        inputs := [], params := [] }
      rfl rfl rfl rfl).1 rfl
  · exact (c4_terminal_resolution 2 "Material Output" ""
      [{ sname := "Surface", node_prop_name := "", links := [lnkA] },
       { sname := "Volume", node_prop_name := "", links := [] },
       { sname := "Displacement", node_prop_name := "", links := [] }]
      { sname := "Surface", node_prop_name := "", links := [lnkA] }
      lnkA DocState.empty
      { nodes := [docA],
        logs := [.info "compute Material Output", .info "compute A out"] }
      docA rfl rfl rfl rfl).2 (by decide)

/-- C5: with the Surface input unlinked, or with its upstream compilation
yielding no node, the terminal compute returns `None` without raising and
the terminal-resolution step adds no node to the document. -/
theorem c5_terminal_unlinked_no_result (fuel : Nat) (oname k : String)
    (inputs : List (InSockG GNode)) (sock : InSockG GNode) (st : DocState)
    (hfind : inputs.find? (fun s => s.sname = "Surface") = some sock) :
    (sock.links = [] →
      compute_node (fuel + 1) (.out oname inputs) k st
        = some (none, st.log (.info ("compute " ++ oname))) ∧
      (st.log (.info ("compute " ++ oname))).nodes = st.nodes) ∧
    (∀ link st₁, sock.links = [link] → link.is_valid = true →
      compute_node fuel link.from_node link.from_socket
          (st.log (.info ("compute " ++ oname))) = some (none, st₁) →
      compute_node (fuel + 1) (.out oname inputs) k st = some (none, st₁)) := by
  constructor
  · intro hnolink
    constructor
    · simp [compute_node, MxNode_Output.compute_with, hfind, get_input_link_with,
            hnolink]
    · simp [DocState.log]
  · intro link st₁ hlinks hvalid hup
    simp [compute_node, MxNode_Output.compute_with, hfind, get_input_link_with,
          hlinks, hvalid, hup]

/-- C5 witness: the concrete terminal node with `Surface` unlinked yields
`None` with the document untouched. -/
theorem c5_terminal_unlinked_no_result_witness :
    compute_node 3 gOutUnlinked "" DocState.empty
      = some (none, { nodes := [], logs := [.info "compute Material Output"] }) ∧
    ({ nodes := [], logs := [.info "compute Material Output"] } : DocState).nodes
      = DocState.empty.nodes :=
  (c5_terminal_unlinked_no_result 2 "Material Output" ""
    [{ sname := "Surface", node_prop_name := "", links := [] },
     { sname := "Volume", node_prop_name := "", links := [] },
     { sname := "Displacement", node_prop_name := "", links := [] }]
    { sname := "Surface", node_prop_name := "", links := [] }
    DocState.empty rfl).1 rfl

/-- C6: the Type Mapper's parametrized families. A type exactly matching
`matrix<R><C>` yields a float-vector property of size `R*C` tagged MATRIX;
`color<N>` yields size `N` tagged COLOR; `vector<N>` yields size `N`
tagged XYZ exactly when `N = 3` and NONE otherwise; any type string ending
in `array` yields a string-typed property (the function is total, so no
branch raises). -/
theorem c6_sized_vector_families (p : MxParam) :
    (∀ r c : Nat, r < 10 → c < 10 → p.type = "matrix" ++ toString r ++ toString c →
      (create_property p).1.2.1 = .FloatVectorProperty ∧
      (create_property p).1.2.2.lookup "subtype" = some (.s "MATRIX") ∧
      (create_property p).1.2.2.lookup "size" = some (.n (r * c))) ∧
    (∀ n : Nat, n < 10 → p.type = "color" ++ toString n →
      (create_property p).1.2.1 = .FloatVectorProperty ∧
      (create_property p).1.2.2.lookup "subtype" = some (.s "COLOR") ∧
      (create_property p).1.2.2.lookup "size" = some (.n n)) ∧
    (∀ n : Nat, n < 10 → p.type = "vector" ++ toString n →
      (create_property p).1.2.1 = .FloatVectorProperty ∧
      (create_property p).1.2.2.lookup "subtype"
        = some (.s (if n = 3 then "XYZ" else "NONE")) ∧
      (create_property p).1.2.2.lookup "size" = some (.n n)) ∧
    (∀ t : String, p.type = t ++ "array" →
      (create_property p).1.2.1 = .StringProperty) := by
  refine ⟨?_, ?_, ?_, ?_⟩
  · intro r c hr hc ht
    obtain ⟨hm, h1, h2, h3, h4, h5, h6⟩ := matrixFamilyFacts r hr c hc
    rw [← ht] at hm h1 h2 h3 h4 h5 h6
    have hd : create_property_dispatch p =
        (.FloatVectorProperty, [("subtype", .s "MATRIX"), ("size", .n (r * c))], []) := by
      simp only [create_property_dispatch, hm, h1, h2, h3, h4, h5, h6, if_false,
        Bool.false_eq_true, ite_false]
    obtain ⟨rest, hattrs⟩ := create_property_attrs_split p
    rw [create_property_type_eq, hattrs, hd]
    refine ⟨rfl, ?_, ?_⟩ <;> simp [List.lookup]
  · intro n hn ht
    obtain ⟨hm, hmm, h1, h2, h3, h4, h5, h6⟩ := colorFamilyFacts n hn
    rw [← ht] at hm hmm h1 h2 h3 h4 h5 h6
    have hd : create_property_dispatch p =
        (.FloatVectorProperty, [("subtype", .s "COLOR"), ("size", .n n)], []) := by
      simp only [create_property_dispatch, hm, hmm, h1, h2, h3, h4, h5, h6, if_false,
        Bool.false_eq_true, ite_false]
    obtain ⟨rest, hattrs⟩ := create_property_attrs_split p
    rw [create_property_type_eq, hattrs, hd]
    refine ⟨rfl, ?_, ?_⟩ <;> simp [List.lookup]
  · intro n hn ht
    obtain ⟨hm, hmm, hmc, h1, h2, h3, h4, h5, h6⟩ := vectorFamilyFacts n hn
    rw [← ht] at hm hmm hmc h1 h2 h3 h4 h5 h6
    have hd : create_property_dispatch p =
        (.FloatVectorProperty,
         [("subtype", .s (if n = 3 then "XYZ" else "NONE")), ("size", .n n)], []) := by
      simp only [create_property_dispatch, hm, hmm, hmc, h1, h2, h3, h4, h5, h6,
        if_false, Bool.false_eq_true, ite_false]
    obtain ⟨rest, hattrs⟩ := create_property_attrs_split p
    rw [create_property_type_eq, hattrs, hd]
    refine ⟨rfl, ?_, ?_⟩ <;> simp [List.lookup]
  · intro t ht
    have hy : p.type.data.getLast? = some 'y' := by
      rw [ht, String.data_append, List.getLast?_append_of_ne_nil _ (by decide)]
      decide
    rw [create_property_type_eq]
    exact dispatch_of_last_y p hy

/-- C6 witness: the family theorem applied at `matrix33`, `color4`,
`vector3`, `vector2` and `floatarray`. -/
theorem c6_sized_vector_families_witness :
    (create_property ⟨"mat", "matrix33", [], "ND_x"⟩).1.2.1
      = .FloatVectorProperty ∧
    (create_property ⟨"mat", "matrix33", [], "ND_x"⟩).1.2.2.lookup "size"
      = some (.n 9) ∧
    (create_property ⟨"col", "color4", [], "ND_x"⟩).1.2.2.lookup "size"
      = some (.n 4) ∧
    (create_property ⟨"vec", "vector3", [], "ND_x"⟩).1.2.2.lookup "subtype"
      = some (.s "XYZ") ∧
    (create_property ⟨"vecb", "vector2", [], "ND_x"⟩).1.2.2.lookup "subtype"
      = some (.s "NONE") ∧
    (create_property ⟨"arr", "floatarray", [], "ND_x"⟩).1.2.1
      = .StringProperty := by
  refine ⟨?_, ?_, ?_, ?_, ?_, ?_⟩
  · exact ((c6_sized_vector_families ⟨"mat", "matrix33", [], "ND_x"⟩).1
      3 3 (by decide) (by decide) (by decide)).1
  · exact ((c6_sized_vector_families ⟨"mat", "matrix33", [], "ND_x"⟩).1
      3 3 (by decide) (by decide) (by decide)).2.2
  · exact ((c6_sized_vector_families ⟨"col", "color4", [], "ND_x"⟩).2.1
      4 (by decide) (by decide)).2.2
  · exact ((c6_sized_vector_families ⟨"vec", "vector3", [], "ND_x"⟩).2.2.1
      3 (by decide) (by decide)).2.1
  · exact ((c6_sized_vector_families ⟨"vecb", "vector2", [], "ND_x"⟩).2.2.1
      2 (by decide) (by decide)).2.1
  · exact (c6_sized_vector_families ⟨"arr", "floatarray", [], "ND_x"⟩).2.2.2
      "float" (by decide)

/-- C7: a type string not recognized by any dispatch rule yields a plain
string property together with a single warning log that carries the owning
definition's name (`getParent().getName()`), and the function is total, so
nothing raises. -/
theorem c7_unrecognized_type_fallback (p : MxParam)
    (h1 : p.type ≠ "string") (h2 : p.type ≠ "filename") (h3 : p.type ≠ "integer")
    (h4 : p.type ≠ "float") (h5 : p.type ≠ "boolean")
    (h6 : shaderTypes.contains p.type = false)
    (h7 : matchMatrix p.type.data = none) (h8 : matchColor p.type.data = none)
    (h9 : matchVector p.type.data = none) (h10 : matchArray p.type.data = false) :
    (create_property p).1.2.1 = .StringProperty ∧
    (create_property p).2
      = [.warn "Unsupported mx_type" (p.type ++ " " ++ p.parentName)] := by
  have hd : create_property_dispatch p =
      (.StringProperty, [],
       [.warn "Unsupported mx_type" (p.type ++ " " ++ p.parentName)]) := by
    simp only [create_property_dispatch, h1, h2, h3, h4, h5, h6, h7, h8, h9, h10,
      if_false, Bool.false_eq_true, ite_false]
  exact ⟨by rw [create_property_type_eq, hd], by rw [create_property_logs_eq, hd]⟩

/-- C7 witness: the fallback theorem applied at the unrecognized type
string `weird`. -/
theorem c7_unrecognized_type_fallback_witness :
    (create_property ⟨"x", "weird", [], "ND_parent"⟩).1.2.1 = .StringProperty ∧
    (create_property ⟨"x", "weird", [], "ND_parent"⟩).2
      = [.warn "Unsupported mx_type" "weird ND_parent"] :=
  c7_unrecognized_type_fallback ⟨"x", "weird", [], "ND_parent"⟩
    (by decide) (by decide) (by decide) (by decide) (by decide) (by decide)
    (by decide) (by decide) (by decide) (by decide)

/-- C8: the `parse_val` rules. Booleans parse only the literal token
`true` as true and anything else as false; float-vector properties parse
as the comma-split list of float tokens; enum properties parse as the
comma-split list of whitespace-stripped tokens; with `first_only` set,
only the first parsed element is returned. Concrete instances are included
for each splitting rule. -/
theorem c8_parse_val_rules :
    (parse_val .BoolProperty "true" false = some (.bool true)) ∧
    (∀ v : String, v ≠ "true" → parse_val .BoolProperty v false = some (.bool false)) ∧
    (∀ v : String, parse_val .FloatVectorProperty v false
      = some (.floatVec ((pySplit ',' v).map PyFloat.mk))) ∧
    (∀ v : String, parse_val .EnumProperty v false
      = some (.strVec ((pySplit ',' v).map pyStrip))) ∧
    (∀ v : String, ∀ f : PyFloat, ∀ fs : List PyFloat,
      (pySplit ',' v).map PyFloat.mk = f :: fs →
      parse_val .FloatVectorProperty v true = some (.float f)) ∧
    (∀ v s ss, (pySplit ',' v).map pyStrip = s :: ss →
      parse_val .EnumProperty v true = some (.str s)) ∧
    (parse_val .FloatVectorProperty "1.0, 2.5,3" false
      = some (.floatVec [⟨"1.0"⟩, ⟨" 2.5"⟩, ⟨"3"⟩])) ∧
    (parse_val .EnumProperty " linear , srgb_texture " false
      = some (.strVec ["linear", "srgb_texture"])) ∧
    (parse_val .FloatVectorProperty "0,1,0,1" true = some (.float ⟨"0"⟩)) := by
  refine ⟨rfl, ?_, fun v => rfl, fun v => rfl, ?_, ?_, by decide, by decide, by decide⟩
  · intro v hv
    have hb : (v == "true") = false := by
      simp [hv]
    simp [parse_val, hb]
  · intro v f fs h
    simp [parse_val, h]
  · intro v s ss h
    simp [parse_val, h]

/-- C8 witness: the boolean and first-only rules applied at concrete
inputs through the theorem. -/
theorem c8_parse_val_rules_witness :
    parse_val .BoolProperty "True" false = some (.bool false) ∧
    parse_val .FloatVectorProperty "4,5" true = some (.float ⟨"4"⟩) :=
  ⟨c8_parse_val_rules.2.1 "True" (by decide),
   c8_parse_val_rules.2.2.2.2.1 "4,5" ⟨"4"⟩ [⟨"5"⟩] (by decide)⟩

theorem insertGrouped_of_not_mem {acc : List ((String × String) × List NodeDef)}
    {nd : NodeDef} (h : ndKey nd ∉ acc.map Prod.fst) :
    insertGrouped acc nd = acc ++ [(ndKey nd, [nd])] := by
  induction acc with
  | nil => rfl
  | cons kg rest ih =>
      rcases kg with ⟨k, g⟩
      simp only [List.map_cons, List.mem_cons] at h
      push_neg at h
      obtain ⟨h1, h2⟩ := h
      unfold insertGrouped
      rw [if_neg (fun he => h1 he.symm)]
      simp [ih h2]

theorem insertGrouped_of_mem {acc : List ((String × String) × List NodeDef)}
    {nd : NodeDef} (hnodup : (acc.map Prod.fst).Nodup)
    (h : ndKey nd ∈ acc.map Prod.fst) :
    insertGrouped acc nd
      = acc.map (fun kg => if kg.1 = ndKey nd then (kg.1, kg.2 ++ [nd]) else kg) := by
  induction acc with
  | nil => simp at h
  | cons kg rest ih =>
      rcases kg with ⟨k, g⟩
      simp only [List.map_cons, List.nodup_cons] at hnodup
      obtain ⟨hk, hrest⟩ := hnodup
      by_cases hke : k = ndKey nd
      · unfold insertGrouped
        rw [if_pos hke]
        simp only [List.map_cons, if_pos hke]
        congr 1
        have hall : ∀ kg' ∈ rest,
            (if kg'.1 = ndKey nd then (kg'.1, kg'.2 ++ [nd]) else kg') = kg' := by
          intro kg' hm
          rw [if_neg]
          intro he
          have hmem' : kg'.1 ∈ rest.map Prod.fst := List.mem_map_of_mem Prod.fst hm
          rw [he, ← hke] at hmem'
          exact hk hmem'
        rw [List.map_congr_left hall]
        simp
      · have hmem : ndKey nd ∈ rest.map Prod.fst := by
          simp only [List.map_cons, List.mem_cons] at h
          rcases h with h | h
          · exact absurd h.symm hke
          · exact h
        unfold insertGrouped
        rw [if_neg hke]
        simp only [List.map_cons, if_neg hke]
        rw [ih hrest hmem]

/-- Structure of the `defaultdict(list)` grouping of `create_node_types`:
each group holds, in traversal order, exactly the nodedefs carrying its
key; group keys are distinct and appear in first-occurrence order; groups
are nonempty; every nodedef lands in a group. -/
theorem groupNodeDefs_spec (l : List NodeDef) :
    (∀ kg ∈ groupNodeDefs l, kg.2 = l.filter (fun nd₀ => ndKey nd₀ == kg.1)) ∧
    ((groupNodeDefs l).map Prod.fst).Nodup ∧
    (∀ kg ∈ groupNodeDefs l, kg.2 ≠ []) ∧
    (∀ nd ∈ l, ndKey nd ∈ (groupNodeDefs l).map Prod.fst) := by
  induction l using List.reverseRecOn with
  | nil => simp [groupNodeDefs]
  | append_singleton l nd ih =>
      obtain ⟨hA, hB, hD, hE⟩ := ih
      have hstep : groupNodeDefs (l ++ [nd]) = insertGrouped (groupNodeDefs l) nd := by
        simp [groupNodeDefs, List.foldl_append]
      by_cases hmem : ndKey nd ∈ (groupNodeDefs l).map Prod.fst
      · have hkeys : (insertGrouped (groupNodeDefs l) nd).map Prod.fst
            = (groupNodeDefs l).map Prod.fst := by
          rw [insertGrouped_of_mem hB hmem, List.map_map]
          apply List.map_congr_left
          intro kg hkg
          by_cases hke : kg.1 = ndKey nd <;> simp [hke]
        refine ⟨?_, ?_, ?_, ?_⟩
        · intro kg hkg
          rw [hstep, insertGrouped_of_mem hB hmem] at hkg
          obtain ⟨kg₀, hkg₀, hfkg⟩ := List.mem_map.mp hkg
          by_cases hke : kg₀.1 = ndKey nd
          · rw [if_pos hke] at hfkg
            subst hfkg
            simp only [List.filter_append]
            rw [← hA kg₀ hkg₀]
            simp [hke]
          · rw [if_neg hke] at hfkg
            subst hfkg
            simp only [List.filter_append]
            rw [← hA kg₀ hkg₀]
            have : (ndKey nd == kg₀.1) = false := by
              simp only [beq_eq_false_iff_ne, ne_eq]
              exact fun he => hke he.symm
            simp [this]
        · rw [hstep, hkeys]
          exact hB
        · intro kg hkg
          rw [hstep, insertGrouped_of_mem hB hmem] at hkg
          obtain ⟨kg₀, hkg₀, hfkg⟩ := List.mem_map.mp hkg
          by_cases hke : kg₀.1 = ndKey nd
          · rw [if_pos hke] at hfkg
            subst hfkg
            simp
          · rw [if_neg hke] at hfkg
            subst hfkg
            exact hD kg₀ hkg₀
        · intro nd' hnd'
          rw [hstep, hkeys]
          rcases List.mem_append.mp hnd' with h | h
          · exact hE nd' h
          · rw [List.mem_singleton.mp h]
            exact hmem
      · refine ⟨?_, ?_, ?_, ?_⟩
        · intro kg hkg
          rw [hstep, insertGrouped_of_not_mem hmem] at hkg
          rcases List.mem_append.mp hkg with h | h
          · have hne : kg.1 ≠ ndKey nd := by
              intro he
              exact hmem (he ▸ List.mem_map_of_mem Prod.fst h)
            simp only [List.filter_append]
            rw [← hA kg h]
            have : (ndKey nd == kg.1) = false := by
              simp only [beq_eq_false_iff_ne, ne_eq]
              exact fun he => hne he.symm
            simp [this]
          · rw [List.mem_singleton.mp h]
            simp only [List.filter_append]
            have hfl : l.filter (fun nd₀ => ndKey nd₀ == ndKey nd) = [] := by
              rw [List.filter_eq_nil_iff]
              intro a ha hbeq
              exact hmem ((beq_iff_eq.mp hbeq) ▸ hE a ha)
            simp [hfl]
        · rw [hstep, insertGrouped_of_not_mem hmem]
          simp only [List.map_append, List.map_cons, List.map_nil]
          rw [List.nodup_append]
          refine ⟨hB, List.nodup_singleton _, ?_⟩
          intro k hk hk'
          rw [List.mem_singleton.mp hk'] at hk
          exact hmem hk
        · intro kg hkg
          rw [hstep, insertGrouped_of_not_mem hmem] at hkg
          rcases List.mem_append.mp hkg with h | h
          · exact hD kg h
          · rw [List.mem_singleton.mp h]
            simp
        · intro nd' hnd'
          rw [hstep, insertGrouped_of_not_mem hmem]
          simp only [List.map_append, List.map_cons, List.map_nil]
          rcases List.mem_append.mp hnd' with h | h
          · exact List.mem_append_left _ (hE nd' h)
          · rw [List.mem_singleton.mp h]
            exact List.mem_append_right _ (List.mem_singleton.mpr rfl)

/-- C9: the node-type builder partitions the nodedef list by the
`(nodeCategory, nodeGroup)` key and constructs exactly one node type per
group; each group holds exactly the definitions carrying its key in
traversal order, each constructed type carries one variant per member with
the member's name as identifier, identifiers are distinct within a type
when nodedef names are unique (the data model declares `name` a unique
identifier), and the variant selector's default is the first member in
group order. -/
theorem c9_variant_grouping (nds : List NodeDef)
    (hnames : (nds.map NodeDef.name).Nodup) :
    (create_node_types nds).length = (groupNodeDefs nds).length ∧
    ((groupNodeDefs nds).map Prod.fst).Nodup ∧
    (∀ nd ∈ nds, ndKey nd ∈ (groupNodeDefs nds).map Prod.fst) ∧
    (∀ kg ∈ groupNodeDefs nds,
      kg.2 = nds.filter (fun nd₀ => ndKey nd₀ == kg.1) ∧
      ∃ t, MxNode.new kg.2 = some t ∧
        t.var_items.length = kg.2.length ∧
        t.var_items.map (fun it => it.1) = kg.2.map NodeDef.name ∧
        (t.var_items.map (fun it => it.1)).Nodup ∧
        ∃ hd tl, kg.2 = hd :: tl ∧ t.data_type_default = hd.name) := by
  obtain ⟨hA, hB, hD, hE⟩ := groupNodeDefs_spec nds
  refine ⟨by simp [create_node_types], hB, hE, ?_⟩
  intro kg hkg
  refine ⟨hA kg hkg, ?_⟩
  obtain ⟨hd, tl, hcons⟩ : ∃ hd tl, kg.2 = hd :: tl := by
    cases h : kg.2 with
    | nil => exact absurd h (hD kg hkg)
    | cons a b => exact ⟨a, b, rfl⟩
  have hnodup : (kg.2.map NodeDef.name).Nodup := by
    have hsub : List.Sublist (kg.2.map NodeDef.name) (nds.map NodeDef.name) := by
      rw [hA kg hkg]
      exact (List.filter_sublist _).map _
    exact List.Nodup.sublist hsub hnames
  rw [hcons]
  rw [hcons] at hnodup
  refine ⟨_, rfl, ?_, ?_, ?_, hd, tl, rfl, ?_⟩
  · simp [MxNode.new]
  · simp [MxNode.new]
  · simpa [MxNode.new] using hnodup
  · rfl

/-- C9 witness: the grouping theorem applied to the concrete nodedef list
`[ndConst, ndAdd, ndConst2]`, whose `constant` group has two members. -/
theorem c9_variant_grouping_witness :
    (create_node_types [ndConst, ndAdd, ndConst2]).length
      = (groupNodeDefs [ndConst, ndAdd, ndConst2]).length ∧
    ([ndConst, ndConst2] = [ndConst, ndAdd, ndConst2].filter
        (fun nd₀ => ndKey nd₀ == ("constant", "")) ∧
      ∃ t, MxNode.new [ndConst, ndConst2] = some t ∧
        t.var_items.length = [ndConst, ndConst2].length ∧
        t.var_items.map (fun it => it.1) = [ndConst, ndConst2].map NodeDef.name ∧
        (t.var_items.map (fun it => it.1)).Nodup ∧
        ∃ hd tl, [ndConst, ndConst2] = hd :: tl ∧ t.data_type_default = hd.name) :=
  ⟨(c9_variant_grouping [ndConst, ndAdd, ndConst2] (by decide)).1,
   (c9_variant_grouping [ndConst, ndAdd, ndConst2] (by decide)).2.2.2
     (("constant", ""), [ndConst, ndConst2]) (by decide)⟩

theorem mem_name_of_getD {ns : List MxDocNode} {m : MxDocNode} (h : m ∈ ns) :
    ∃ j, j < ns.length ∧ (ns.getD j dnil).name = m.name := by
  obtain ⟨j, hj, he⟩ := List.getElem_of_mem h
  refine ⟨j, hj, ?_⟩
  rw [List.getD_eq_getElem ns dnil hj, he]

theorem docTopo_append_of {ns : List MxDocNode} {n : MxDocNode}
    (h : docTopo ns) (href : ∀ s ∈ portRefs n, ∃ m ∈ ns, m.name = s) :
    docTopo (ns ++ [n]) := by
  intro i hi s hs
  rw [List.length_append, List.length_singleton] at hi
  rcases Nat.lt_or_ge i ns.length with hlt | hge
  · rw [List.getD_append _ _ _ _ hlt] at hs
    obtain ⟨j, hj, hname⟩ := h i hlt s hs
    exact ⟨j, hj, by rw [List.getD_append _ _ _ _ (Nat.lt_trans hj hlt)]; exact hname⟩
  · have hieq : i = ns.length := Nat.le_antisymm (Nat.lt_succ_iff.mp hi) hge
    subst hieq
    rw [List.getD_append_right _ _ _ _ hge, Nat.sub_self] at hs
    obtain ⟨m, hm, hname⟩ := href s hs
    obtain ⟨j, hj, hjname⟩ := mem_name_of_getD hm
    refine ⟨j, hj, ?_⟩
    rw [List.getD_append _ _ _ _ hj, hjname, hname]

theorem portRefs_spec {node : MxDocNode} {s : String} (h : s ∈ portRefs node) :
    ∃ p, (p ∈ node.inputs ∨ p ∈ node.params) ∧ p.val = PortVal.nodeRef s := by
  unfold portRefs at h
  obtain ⟨p, hp, hf⟩ := List.mem_filterMap.mp h
  refine ⟨p, List.mem_append.mp hp, ?_⟩
  cases hv : p.val with
  | nodeRef a => rw [hv] at hf; simp at hf; rw [hf]
  | valueString v => rw [hv] at hf; exact absurd hf (by simp)
  | value v => rw [hv] at hf; exact absurd hf (by simp)

theorem mkParamPorts_no_refs {propVals : List (String × MxVal)} :
    ∀ {ndParams : List MxParam} {ports : List MxPort},
    mkParamPorts propVals ndParams = some ports →
    ∀ p ∈ ports, ∀ s, p.val ≠ PortVal.nodeRef s := by
  intro ndParams
  induction ndParams with
  | nil =>
      intro ports h
      unfold mkParamPorts at h
      injection h with h'
      subst h'
      intro p hp
      simp at hp
  | cons ndp rest ih =>
      intro ports h
      unfold mkParamPorts at h
      cases hl : propVals.lookup ("p_" ++ ndp.name) with
      | none => rw [hl] at h; simp at h
      | some v =>
          rw [hl] at h
          cases hrec : mkParamPorts propVals rest with
          | none => rw [hrec] at h; simp at h
          | some ports' =>
              rw [hrec] at h
              injection h with h'
              subst h'
              intro p hp s
              rcases List.mem_cons.mp hp with hph | hpt
              · subst hph
                simp only [set_value]
                split <;> (intro hc; cases hc)
              · exact ih hrec p hpt s

theorem mkInputPorts_refs {nd : NodeDef} :
    ∀ {socks : List (InSockG GNode)} {vals : List InVal} {ports : List MxPort},
    mkInputPorts nd socks vals = some ports →
    ∀ p ∈ ports, ∀ s, p.val = PortVal.nodeRef s →
      ∃ n, InVal.node n ∈ vals ∧ MxDocNode.getName n = s := by
  intro socks
  induction socks with
  | nil =>
      intro vals ports h
      cases vals <;>
        · unfold mkInputPorts at h
          injection h with h'
          subst h'
          intro p hp
          simp at hp
  | cons sock socks' ih =>
      intro vals ports h
      cases vals with
      | nil =>
          unfold mkInputPorts at h
          injection h with h'
          subst h'
          intro p hp
          simp at hp
      | cons v vals' =>
          unfold mkInputPorts at h
          cases hgi : nd.getInput (sock.node_prop_name.drop 3) with
          | none => rw [hgi] at h; simp at h
          | some ndin =>
              rw [hgi] at h
              cases hrec : mkInputPorts nd socks' vals' with
              | none => rw [hrec] at h; simp at h
              | some ports' =>
                  rw [hrec] at h
                  injection h with h'
                  subst h'
                  intro p hp s hs
                  rcases List.mem_cons.mp hp with hph | hpt
                  · subst hph
                    cases v with
                    | node n =>
                        simp only [set_value] at hs
                        simp at hs
                        exact ⟨n, List.mem_cons_self _ _, hs⟩
                    | val x =>
                        exfalso
                        simp only [set_value] at hs
                        by_cases hft : ndin.type = "filename"
                        · rw [if_pos hft] at hs
                          exact PortVal.noConfusion hs
                        · rw [if_neg hft] at hs
                          exact PortVal.noConfusion hs
                  · obtain ⟨n, hn, hname⟩ := ih hrec p hpt s hs
                    exact ⟨n, List.mem_cons_of_mem _ hn, hname⟩

theorem get_input_link_inv {rec : GNode → String → DocState → CompRes}
    (hrec : ∀ g k st res st', rec g k st = some (res, st') →
      (∃ Δ, st'.nodes = st.nodes ++ Δ) ∧ (docTopo st.nodes → docTopo st'.nodes) ∧
      ∀ n, res = some n → n ∈ st'.nodes)
    {sock : InSockG GNode} {st : DocState} {r : Option MxDocNode} {st₁ : DocState}
    (h : get_input_link_with rec sock st = some (r, st₁)) :
    (∃ Δ, st₁.nodes = st.nodes ++ Δ) ∧ (docTopo st.nodes → docTopo st₁.nodes) ∧
    ∀ n, r = some n → n ∈ st₁.nodes := by
  unfold get_input_link_with at h
  cases hl : sock.links with
  | nil =>
      rw [hl] at h
      simp only [Option.some.injEq, Prod.mk.injEq] at h
      obtain ⟨hr, hst⟩ := h
      subst hr
      subst hst
      refine ⟨⟨[], by simp⟩, fun ht => ht, ?_⟩
      intro n hn
      cases hn
  | cons link rest =>
      rw [hl] at h
      have hn0 : (if link.is_valid then st
          else st.log (.error "Invalid link found" sock.sname)).nodes = st.nodes := by
        split <;> rfl
      obtain ⟨⟨Δ, hΔ⟩, htopo, hmem⟩ := hrec _ _ _ _ _ h
      refine ⟨⟨Δ, by rw [hΔ, hn0]⟩, ?_, hmem⟩
      intro ht
      exact htopo (by rw [hn0]; exact ht)

theorem get_input_value_inv {rec : GNode → String → DocState → CompRes}
    (hrec : ∀ g k st res st', rec g k st = some (res, st') →
      (∃ Δ, st'.nodes = st.nodes ++ Δ) ∧ (docTopo st.nodes → docTopo st'.nodes) ∧
      ∀ n, res = some n → n ∈ st'.nodes)
    {propVals : List (String × MxVal)} {sock : InSockG GNode} {st : DocState}
    {v : InVal} {st₁ : DocState}
    (h : get_input_value_with rec propVals sock st = some (v, st₁)) :
    (∃ Δ, st₁.nodes = st.nodes ++ Δ) ∧ (docTopo st.nodes → docTopo st₁.nodes) ∧
    ∀ n, v = InVal.node n → n ∈ st₁.nodes := by
  unfold get_input_value_with at h
  cases hlk : get_input_link_with rec sock st with
  | none => rw [hlk] at h; cases h
  | some rst =>
      rcases rst with ⟨r, st₂⟩
      rw [hlk] at h
      obtain ⟨hΔ, htopo, hmem⟩ := get_input_link_inv hrec hlk
      cases r with
      | some n =>
          simp only [Option.some.injEq, Prod.mk.injEq] at h
          obtain ⟨hv, hst⟩ := h
          subst hv
          subst hst
          refine ⟨hΔ, htopo, ?_⟩
          intro n' hn'
          cases hn'
          exact hmem n rfl
      | none =>
          cases hpv : propVals.lookup sock.node_prop_name with
          | none => rw [hpv] at h; cases h
          | some x =>
              rw [hpv] at h
              simp only [Option.some.injEq, Prod.mk.injEq] at h
              obtain ⟨hv, hst⟩ := h
              subst hv
              subst hst
              refine ⟨hΔ, htopo, ?_⟩
              intro n' hn'
              cases hn'

theorem computeValues_inv {rec : GNode → String → DocState → CompRes}
    (hrec : ∀ g k st res st', rec g k st = some (res, st') →
      (∃ Δ, st'.nodes = st.nodes ++ Δ) ∧ (docTopo st.nodes → docTopo st'.nodes) ∧
      ∀ n, res = some n → n ∈ st'.nodes)
    {propVals : List (String × MxVal)} :
    ∀ {socks : List (InSockG GNode)} {st : DocState} {vals : List InVal}
      {st₁ : DocState},
    computeValues rec propVals socks st = some (vals, st₁) →
    (∃ Δ, st₁.nodes = st.nodes ++ Δ) ∧ (docTopo st.nodes → docTopo st₁.nodes) ∧
    ∀ n, InVal.node n ∈ vals → n ∈ st₁.nodes := by
  intro socks
  induction socks with
  | nil =>
      intro st vals st₁ h
      unfold computeValues at h
      simp only [Option.some.injEq, Prod.mk.injEq] at h
      obtain ⟨hv, hst⟩ := h
      subst hv
      subst hst
      refine ⟨⟨[], by simp⟩, fun ht => ht, ?_⟩
      intro n hn
      simp at hn
  | cons sock rest ih =>
      intro st vals st₁ h
      unfold computeValues at h
      cases hgv : get_input_value_with rec propVals sock st with
      | none => rw [hgv] at h; cases h
      | some vst =>
          rcases vst with ⟨v, st₂⟩
          rw [hgv] at h
          dsimp only at h
          cases hcv : computeValues rec propVals rest st₂ with
          | none => rw [hcv] at h; cases h
          | some vst' =>
              rcases vst' with ⟨vs, st₃⟩
              rw [hcv] at h
              simp only [Option.some.injEq, Prod.mk.injEq] at h
              obtain ⟨hv, hst⟩ := h
              subst hv
              subst hst
              obtain ⟨⟨Δ₁, hΔ₁⟩, htopo₁, hmem₁⟩ := get_input_value_inv hrec hgv
              obtain ⟨⟨Δ₂, hΔ₂⟩, htopo₂, hmem₂⟩ := ih hcv
              refine ⟨⟨Δ₁ ++ Δ₂, by rw [hΔ₂, hΔ₁, List.append_assoc]⟩,
                fun ht => htopo₂ (htopo₁ ht), ?_⟩
              intro n hn
              rcases List.mem_cons.mp hn with hh | ht
              · have : n ∈ st₂.nodes := hmem₁ n hh.symm
                rw [hΔ₂]
                exact List.mem_append_left _ this
              · exact hmem₂ n ht

theorem compute_node_inv : ∀ (fuel : Nat) (g : GNode) (k : String) (st : DocState)
    (res : Option MxDocNode) (st' : DocState),
    compute_node fuel g k st = some (res, st') →
    (∃ Δ, st'.nodes = st.nodes ++ Δ) ∧ (docTopo st.nodes → docTopo st'.nodes) ∧
    ∀ n, res = some n → n ∈ st'.nodes := by
  intro fuel
  induction fuel with
  | zero => intro g k st res st' h; cases h
  | succ f ih =>
      intro g k st res st' h
      cases g with
      | foreign nm =>
          unfold compute_node at h
          simp only [Option.some.injEq, Prod.mk.injEq] at h
          obtain ⟨hr, hst⟩ := h
          subst hr
          subst hst
          refine ⟨⟨[], by simp [DocState.log]⟩, fun ht => ht, ?_⟩
          intro n hn
          cases hn
      | mx nm nd propVals inputs outputs =>
          unfold compute_node at h
          dsimp only at h
          cases hcw : MxNode.compute_with (compute_node f) nm nd propVals inputs
              outputs k st with
          | none => rw [hcw] at h; cases h
          | some nst =>
              rcases nst with ⟨node, stm⟩
              rw [hcw] at h
              dsimp only at h
              simp only [Option.some.injEq, Prod.mk.injEq] at h
              obtain ⟨hres, hst⟩ := h
              subst hst
              unfold MxNode.compute_with at hcw
              dsimp only at hcw
              by_cases hc : ¬ (outputs.contains k = true)
              · rw [if_pos hc] at hcw
                cases hcw
              · rw [if_neg hc] at hcw
                cases hout : nd.getOutput (code_str k) with
                | none => rw [hout] at hcw; cases hcw
                | some nd_output =>
                    rw [hout] at hcw
                    dsimp only at hcw
                    cases hcv : computeValues (compute_node f) propVals inputs
                        (st.log (.info ("compute " ++ nm ++ " " ++ k))) with
                    | none => rw [hcv] at hcw; cases hcw
                    | some vst =>
                        rcases vst with ⟨values, st₁⟩
                        rw [hcv] at hcw
                        dsimp only at hcw
                        cases hip : mkInputPorts nd inputs values with
                        | none => rw [hip] at hcw; dsimp only at hcw; cases hcw
                        | some inPorts =>
                            cases hpp : mkParamPorts propVals nd.params with
                            | none =>
                                rw [hip, hpp] at hcw
                                dsimp only at hcw
                                cases hcw
                            | some paramPorts =>
                                rw [hip, hpp] at hcw
                                dsimp only at hcw
                                simp only [Option.some.injEq, Prod.mk.injEq] at hcw
                                obtain ⟨hnode, hstm⟩ := hcw
                                subst hstm
                                obtain ⟨⟨Δ, hΔ⟩, htopo, hvals⟩ :=
                                  computeValues_inv ih hcv
                                have hlog : (st.log
                                    (.info ("compute " ++ nm ++ " " ++ k))).nodes
                                    = st.nodes := rfl
                                rw [hlog] at hΔ
                                refine ⟨⟨Δ ++ [node], by
                                  simp only [DocState.addNode, hΔ, hnode,
                                    List.append_assoc]⟩, ?_, ?_⟩
                                · intro ht
                                  have ht₁ : docTopo st₁.nodes := htopo ht
                                  simp only [DocState.addNode]
                                  apply docTopo_append_of ht₁
                                  intro s hs
                                  obtain ⟨p, hploc, hpval⟩ := portRefs_spec hs
                                  rcases hploc with hin | hpar
                                  · obtain ⟨n', hn', hname⟩ :=
                                      mkInputPorts_refs hip p hin s hpval
                                    exact ⟨n', hvals n' hn', hname⟩
                                  · exact absurd hpval
                                      (mkParamPorts_no_refs hpp p hpar s)
                                · intro n hn
                                  rw [← hres] at hn
                                  injection hn with hn'
                                  subst hn'
                                  simp only [DocState.addNode, List.mem_append,
                                    List.mem_singleton]
                                  exact Or.inr hnode.symm
      | out nm inputs =>
          unfold compute_node MxNode_Output.compute_with at h
          dsimp only at h
          cases hfind : inputs.find? (fun s => s.sname = "Surface") with
          | none => rw [hfind] at h; cases h
          | some sock =>
              rw [hfind] at h
              try dsimp only at h
              cases hlk : get_input_link_with (compute_node f) sock
                  (st.log (.info ("compute " ++ nm))) with
              | none => rw [hlk] at h; cases h
              | some rst =>
                  rcases rst with ⟨r, st₁⟩
                  rw [hlk] at h
                  try dsimp only at h
                  obtain ⟨⟨Δ, hΔ⟩, htopo, hmem⟩ := get_input_link_inv ih hlk
                  have hlog : (st.log (.info ("compute " ++ nm))).nodes
                      = st.nodes := rfl
                  rw [hlog] at hΔ
                  cases r with
                  | none =>
                      dsimp only at h
                      simp only [Option.some.injEq, Prod.mk.injEq] at h
                      obtain ⟨hres, hst⟩ := h
                      subst hst
                      refine ⟨⟨Δ, hΔ⟩, htopo, ?_⟩
                      intro n hn
                      rw [← hres] at hn
                      cases hn
                  | some n =>
                      dsimp only at h
                      by_cases hty : n.getType = "surfaceshader"
                      · rw [if_pos hty] at h
                        simp only [Option.some.injEq, Prod.mk.injEq] at h
                        obtain ⟨hres, hst⟩ := h
                        subst hst
                        refine ⟨⟨Δ, hΔ⟩, htopo, ?_⟩
                        intro n' hn'
                        rw [← hres] at hn'
                        injection hn' with hn''
                        subst hn''
                        exact hmem n rfl
                      · rw [if_neg hty] at h
                        simp only [Option.some.injEq, Prod.mk.injEq] at h
                        obtain ⟨hres, hst⟩ := h
                        subst hst
                        have hn₁ : n ∈ st₁.nodes := hmem n rfl
                        refine ⟨⟨Δ ++ [surfaceWrapper n], by
                          simp only [DocState.addNode, hΔ, List.append_assoc,
                            surfaceWrapper]⟩, ?_, ?_⟩
                        · intro ht
                          have ht₁ : docTopo st₁.nodes := htopo ht
                          simp only [DocState.addNode]
                          apply docTopo_append_of ht₁
                          intro s hs
                          simp only [portRefs, List.filterMap] at hs
                          simp at hs
                          exact ⟨n, hn₁, by rw [hs]; rfl⟩
                        · intro n' hn'
                          rw [← hres] at hn'
                          injection hn' with hn''
                          subst hn''
                          simp [DocState.addNode]

/-- C10: in every compute call, all input values are resolved first
(recursively compiling every linked upstream node) and only then is the
node's own document node appended, so every document node that another
node's ports reference by name was appended strictly earlier: a document
built by a compute pass from the empty document is topologically ordered
(upstream before downstream). -/
theorem c10_topological_emission (fuel : Nat) (g : GNode) (k : String)
    (res : Option MxDocNode) (st' : DocState)
    (h : compute_node fuel g k DocState.empty = some (res, st')) :
    docTopo st'.nodes :=
  (compute_node_inv fuel g k DocState.empty res st' h).2.1 (by
    intro i hi
    simp [DocState.empty] at hi)

/-- C10 witness: the topological-order theorem applied to the concrete
diamond graph `B` over `A`, with the hypothesis discharged by evaluation. -/
theorem c10_topological_emission_witness :
    docTopo [docA, docA,
      { name := "B", category := "add", type := "float",
        inputs := [{ name := "in1", type := "float", val := .nodeRef "A" },
                   { name := "in2", type := "float", val := .nodeRef "A" }],
        params := [] }] := by
  have h : compute_node 10 gB "out" DocState.empty
      = some (some
          { name := "B", category := "add", type := "float",
            inputs := [{ name := "in1", type := "float", val := .nodeRef "A" },
                       { name := "in2", type := "float", val := .nodeRef "A" }],
            params := [] },
          { nodes := [docA, docA,
              { name := "B", category := "add", type := "float",
                inputs := [{ name := "in1", type := "float", val := .nodeRef "A" },
                           { name := "in2", type := "float", val := .nodeRef "A" }],
                params := [] }],
            logs := [.info "compute B out", .info "compute A out",
                     .info "compute A out"] }) := by decide
  exact c10_topological_emission 10 gB "out" _ _ h
